import Mathlib

/-!
Verification of the image-asset pipeline in `tooling/postexport.py`.

The development shallowly embeds the pipeline's pure core: content hashing
(`hashlib.sha1` truncated to 12 hex digits), filename slugification, the
variant generator, the manifest cache, and the HTML/CSS reference rewriters.
The filesystem is modelled as an association list from path to file content,
the network as a partial function from URL to bytes, and Pillow's image
decoder as a partial function from bytes to a (width, height) pair carried in
the environment.  Fallible operations return `Except`, mirroring Python
exceptions: an `Except.error` result corresponds to an uncaught exception
propagating out of the translated function.
-/

set_option maxRecDepth 100000
set_option maxHeartbeats 3200000

namespace Postexport

/-- Bytes of a file or network response; each entry is a value below 256. -/
abbrev Bytes := List Nat

/-! ## SHA-1 (`hashlib.sha1`), used by `hash12` -/

/-- Two to the 32, the word modulus of SHA-1 arithmetic. -/
def w32 : Nat := 4294967296

/-- Rotate the low 32 bits of a word left by a positions. -/
def rotl (a x : Nat) : Nat := ((x <<< a) ||| (x >>> (32 - a))) % w32

/-- Round function of SHA-1. -/
def sha1f (i b c d : Nat) : Nat :=
  if i < 20 then (b &&& c) ||| (((w32 - 1) - b) &&& d)
  else if i < 40 then b ^^^ c ^^^ d
  else if i < 60 then (b &&& c) ||| (b &&& d) ||| (c &&& d)
  else b ^^^ c ^^^ d

/-- Round constants of SHA-1. -/
def sha1k (i : Nat) : Nat :=
  if i < 20 then 1518500249
  else if i < 40 then 1859775393
  else if i < 60 then 2400959708
  else 3395469782

/-- Big-endian 8-byte encoding of a length in bits. -/
def be8 (n : Nat) : Bytes :=
  [(n >>> 56) % 256, (n >>> 48) % 256, (n >>> 40) % 256, (n >>> 32) % 256,
   (n >>> 24) % 256, (n >>> 16) % 256, (n >>> 8) % 256, n % 256]

/-- SHA-1 padding: append 0x80, zero bytes to 56 mod 64, then the bit length. -/
def sha1Pad (msg : Bytes) : Bytes :=
  let z := (119 - (msg.length % 64)) % 64
  msg ++ [128] ++ List.replicate z 0 ++ be8 (msg.length * 8)

/-- Group bytes into big-endian 32-bit words. -/
def toWords : Bytes → List Nat
  | b0 :: b1 :: b2 :: b3 :: rest =>
      (((b0 * 256 + b1) * 256 + b2) * 256 + b3) :: toWords rest
  | _ => []

/-- Group a word list into chunks of 16 words. -/
def toChunks : List Nat → List (List Nat)
  | w0 :: w1 :: w2 :: w3 :: w4 :: w5 :: w6 :: w7 ::
    w8 :: w9 :: w10 :: w11 :: w12 :: w13 :: w14 :: w15 :: rest =>
      [w0, w1, w2, w3, w4, w5, w6, w7, w8, w9, w10, w11, w12, w13, w14, w15]
        :: toChunks rest
  | _ => []

/-- Message-schedule extension: append n further words to the 16 chunk words. -/
def sha1Extend (ws : List Nat) : Nat → List Nat
  | 0 => ws
  | n + 1 =>
      let L := ws.length
      let x := rotl 1 ((ws.getD (L - 3) 0) ^^^ (ws.getD (L - 8) 0) ^^^
                       (ws.getD (L - 14) 0) ^^^ (ws.getD (L - 16) 0))
      sha1Extend (ws ++ [x]) n

/-- One SHA-1 round on the five-word state. -/
def sha1Round (st : Nat × Nat × Nat × Nat × Nat) (i wi : Nat) :
    Nat × Nat × Nat × Nat × Nat :=
  let (a, b, c, d, e) := st
  let temp := (rotl 5 a + sha1f i b c d + e + sha1k i + wi) % w32
  (temp, a, rotl 30 b, c, d)

/-- Compress one 16-word chunk into the running hash state. -/
def sha1Chunk (h : Nat × Nat × Nat × Nat × Nat) (chunk : List Nat) :
    Nat × Nat × Nat × Nat × Nat :=
  let ws := sha1Extend chunk 64
  let (h0, h1, h2, h3, h4) := h
  let (a, b, c, d, e) :=
    ((List.range 80).zip ws).foldl (fun st p => sha1Round st p.1 p.2)
      (h0, h1, h2, h3, h4)
  ((h0 + a) % w32, (h1 + b) % w32, (h2 + c) % w32, (h3 + d) % w32,
   (h4 + e) % w32)

/-- Initial SHA-1 state. -/
def sha1Init : Nat × Nat × Nat × Nat × Nat :=
  (1732584193, 4023233417, 2562383102, 271733878, 3285377520)

/-- Lowercase hexadecimal digit. -/
def hexDigitLower (n : Nat) : Char :=
  if n < 10 then Char.ofNat (48 + n) else Char.ofNat (87 + n)

/-- Eight-digit lowercase hex rendering of a 32-bit word. -/
def hex8 (n : Nat) : List Char :=
  [hexDigitLower ((n >>> 28) % 16), hexDigitLower ((n >>> 24) % 16),
   hexDigitLower ((n >>> 20) % 16), hexDigitLower ((n >>> 16) % 16),
   hexDigitLower ((n >>> 12) % 16), hexDigitLower ((n >>> 8) % 16),
   hexDigitLower ((n >>> 4) % 16), hexDigitLower (n % 16)]

/-- Hex digest of SHA-1, as hashlib's hexdigest produces. -/
def sha1Hex (msg : Bytes) : String :=
  let s := (toChunks (toWords (sha1Pad msg))).foldl sha1Chunk sha1Init
  String.mk (hex8 s.1 ++ hex8 s.2.1 ++ hex8 s.2.2.1 ++ hex8 s.2.2.2.1 ++
             hex8 s.2.2.2.2)

/-- hash12 from the source: first 12 hex digits of the SHA-1 of the bytes. -/
def hash12 (b : Bytes) : String := String.mk ((sha1Hex b).data.take 12)

/-! ## Character and string utilities shared by the translated helpers -/

/-- Python str.strip whitespace set (space, tab, newline, return, vtab, formfeed). -/
def isPyWS (c : Char) : Bool :=
  c == ' ' || c == '\t' || c == '\n' || c == '\r' || c == '\x0b' || c == '\x0c'

/-- ASCII digit test. -/
def isDigitB (c : Char) : Bool := 48 ≤ c.toNat && c.toNat ≤ 57

/-- Characters the slugifier keeps: lowercase letters, digits, dot, underscore, hyphen. -/
def slugAllowed (c : Char) : Bool :=
  let n := c.toNat
  (97 ≤ n && n ≤ 122) || (48 ≤ n && n ≤ 57) || n == 46 || n == 95 || n == 45

/-- Replace every maximal nonempty run of characters satisfying p by the single
character r (the effect of re.sub with a one-or-more pattern).  The Boolean
argument records whether the previous character was inside a run. -/
def collapseRuns (p : Char → Bool) (r : Char) : Bool → List Char → List Char
  | _, [] => []
  | inRun, c :: cs =>
      if p c then
        if inRun then collapseRuns p r true cs
        else r :: collapseRuns p r true cs
      else c :: collapseRuns p r false cs

/-- Drop characters satisfying p from both ends (str.strip with a class). -/
def stripChars (p : Char → Bool) (cs : List Char) : List Char :=
  ((cs.dropWhile p).reverse.dropWhile p).reverse

/-- Decimal value of a digit string (int() on a group of digits). -/
def digitsToNat (cs : List Char) : Nat :=
  cs.foldl (fun n c => n * 10 + (c.toNat - 48)) 0

/-- Prefix test on character lists (str.startswith). -/
def listStarts : List Char → List Char → Bool
  | [], _ => true
  | _ :: _, [] => false
  | a :: as, b :: bs => a == b && listStarts as bs

/-- String prefix test. -/
def strStarts (pre s : String) : Bool := listStarts pre.data s.data

/-- String suffix test (str.endswith). -/
def strEnds (suf s : String) : Bool := listStarts suf.data.reverse s.data.reverse

/-- ASCII-lowered copy of a string (str.lower on the ASCII inputs used here). -/
def lowerStr (s : String) : String := String.mk (s.data.map Char.toLower)

/-- Split a string at a separator character. -/
def splitCharAux (sep : Char) : List Char → List Char → List String
  | acc, [] => [String.mk acc.reverse]
  | acc, c :: cs =>
      if c == sep then String.mk acc.reverse :: splitCharAux sep [] cs
      else splitCharAux sep (c :: acc) cs

/-- Split a string at a separator character, like str.split(sep). -/
def splitChar (sep : Char) (s : String) : List String := splitCharAux sep [] s.data

/-- Join strings with a separator, like sep.join(parts). -/
def joinSep (sep : String) : List String → String
  | [] => ""
  | [x] => x
  | x :: xs => x ++ sep ++ joinSep sep xs

/-! ## slugify_name, filename_from_url and path helpers -/

/-- slugify_name from the source: strip/lower, remove parentheses, collapse
whitespace runs to a hyphen, collapse disallowed-character runs to a hyphen,
collapse hyphen runs, strip hyphens, with the literal asset fallback. -/
def slugify_name (name : String) : String :=
  let cs := stripChars isPyWS name.data
  let cs := cs.map Char.toLower
  let cs := cs.filter (fun c => c != '(' && c != ')')
  let cs := collapseRuns isPyWS '-' false cs
  let cs := collapseRuns (fun c => ! slugAllowed c) '-' false cs
  let cs := collapseRuns (fun c => c == '-') '-' false cs
  let cs := stripChars (fun c => c == '-') cs
  if cs.isEmpty then "asset" else String.mk cs

/-- Drop characters up to and including the first occurrence of two slashes,
locating the path part of a scheme://host/path URL. -/
def dropThroughSlashSlash : List Char → List Char
  | [] => []
  | '/' :: '/' :: rest => rest
  | _ :: rest => dropThroughSlashSlash rest

/-- Path component of an http(s) URL as urlparse(url).path yields it for the
scheme-qualified URLs this pipeline feeds it: text after the host, stopping
at the query or fragment. -/
def url_path (url : String) : String :=
  let rest := dropThroughSlashSlash url.data
  let path := rest.dropWhile (fun c => c != '/')
  String.mk (path.takeWhile (fun c => c != '?' && c != '#'))

/-- Final path component, like os.path.basename on slash-separated paths. -/
def basename (p : String) : String :=
  String.mk ((p.data.reverse.takeWhile (fun c => c != '/')).reverse)

/-- filename_from_url from the source: basename of the URL path, with the
asset fallback when it is empty. -/
def filename_from_url (url : String) : String :=
  let name := basename (url_path url)
  if name == "" then "asset" else name

/-- Join two path fragments with a slash (os.path.join for the relative
second arguments this pipeline uses). -/
def pjoin (a b : String) : String := a ++ "/" ++ b

/-- Split a basename into stem and extension like os.path.splitext: the
extension starts at the last dot that is not part of the leading dot run,
and includes the dot. -/
def splitext_base (name : String) : String × String :=
  let cs := name.data
  let lead := cs.takeWhile (fun c => c == '.')
  let core := cs.dropWhile (fun c => c == '.')
  if core.any (fun c => c == '.') then
    let rcore := core.reverse
    let revAfter := rcore.takeWhile (fun c => c != '.')
    let revRest := rcore.dropWhile (fun c => c != '.')
    (String.mk (lead ++ (revRest.drop 1).reverse),
     String.mk ('.' :: revAfter.reverse))
  else (String.mk (lead ++ core), "")

/-- Drop leading slashes, like lstrip with a slash argument. -/
def lstripSlash (s : String) : String :=
  String.mk (s.data.dropWhile (fun c => c == '/'))

/-- Component-normalisation step of os.path.normpath. -/
def normGo (isAbs : Bool) : List String → List String → List String
  | acc, [] => acc.reverse
  | acc, ".." :: rest =>
      match acc with
      | [] => if isAbs then normGo isAbs [] rest else normGo isAbs [".."] rest
      | a :: accTail =>
          if a == ".." then normGo isAbs (".." :: a :: accTail) rest
          else normGo isAbs accTail rest
  | acc, c :: rest => normGo isAbs (c :: acc) rest

/-- os.path.normpath on slash-separated paths: removes empty and dot
components and resolves dot-dot components. -/
def normpath (s : String) : String :=
  let isAbs := s.data.head? == some '/'
  let comps := (splitChar '/' s).filter (fun c => c != "" && c != ".")
  let core := joinSep "/" (normGo isAbs [] comps)
  if isAbs then (if core == "" then "/" else "/" ++ core)
  else (if core == "" then "." else core)

/-- Length of the common component prefix of two paths. -/
def commonPrefixLen : List String → List String → Nat
  | a :: as, b :: bs => if a == b then 1 + commonPrefixLen as bs else 0
  | _, _ => 0

/-- os.path.relpath on already-normalised slash-separated paths: strip the
common component prefix, then climb with dot-dot for what remains of start. -/
def relpath (path start : String) : String :=
  let p := (splitChar '/' path).filter (fun c => c != "")
  let st := (splitChar '/' start).filter (fun c => c != "")
  let k := commonPrefixLen p st
  let res := List.replicate (st.length - k) ".." ++ p.drop k
  if res.isEmpty then "." else joinSep "/" res

/-- Directory part of a path, like os.path.dirname. -/
def dirname (p : String) : String :=
  String.mk ((p.data.reverse.dropWhile (fun c => c != '/')).drop 1).reverse

/-! ## urllib.parse.quote -/

/-- UTF-8 bytes of one character. -/
def utf8Bytes (c : Char) : Bytes :=
  let n := c.toNat
  if n < 128 then [n]
  else if n < 2048 then [192 + n / 64, 128 + n % 64]
  else if n < 65536 then [224 + n / 4096, 128 + (n / 64) % 64, 128 + n % 64]
  else [240 + n / 262144, 128 + (n / 4096) % 64, 128 + (n / 64) % 64,
        128 + n % 64]

/-- Uppercase hexadecimal digit. -/
def hexDigitUpper (n : Nat) : Char :=
  if n < 10 then Char.ofNat (48 + n) else Char.ofNat (55 + n)

/-- Percent-encode one character unless it is unreserved or in the safe set. -/
def quoteChar (safe : List Char) (c : Char) : List Char :=
  let n := c.toNat
  if (97 ≤ n && n ≤ 122) || (65 ≤ n && n ≤ 90) || (48 ≤ n && n ≤ 57) ||
     n == 95 || n == 46 || n == 45 || n == 126 || safe.contains c then [c]
  else (utf8Bytes c).foldr
    (fun b acc => '%' :: hexDigitUpper (b / 16) :: hexDigitUpper (b % 16) :: acc) []

/-- urllib.parse.quote with an explicit safe set, as quote(s, safe=...) is
called in the source. -/
def pyQuote (s : String) (safe : List Char) : String :=
  String.mk (s.data.foldr (fun c acc => quoteChar safe c ++ acc) [])

/-! ## Data model: documents, manifest, filesystem tree, environment -/

/-- An img element as BeautifulSoup exposes it: each attribute is absent
(none) or present with a string value. -/
structure Img where
  src : Option String
  srcset : Option String
  sizes : Option String
deriving DecidableEq, Repr

/-- One manifest record: original path, variant paths, generation timestamp. -/
structure MEntry where
  original : String
  variants : List String
  ts : Nat
deriving DecidableEq, Repr

/-- The images mapping of manifest.json, in insertion order as a JSON object
written by Python preserves it. -/
abbrev Manifest := List (String × MEntry)

/-- Dictionary lookup. -/
def mlookup (m : Manifest) (k : String) : Option MEntry :=
  (m.find? (fun kv => kv.1 == k)).map (fun kv => kv.2)

/-- Dictionary assignment: replace in place, or append a new key at the end. -/
def minsert (m : Manifest) (k : String) (e : MEntry) : Manifest :=
  if (m.find? (fun kv => kv.1 == k)).isSome then
    m.map (fun kv => if kv.1 == k then (k, e) else kv)
  else m ++ [(k, e)]

/-- Content of one file on disk: raw bytes, a parsed HTML document (the img
elements BeautifulSoup finds), or the manifest file (none when its JSON text
does not parse). -/
inductive FileC where
  | bytesF (b : Bytes)
  | htmlF (imgs : List Img)
  | manifestF (v : Option Manifest)
deriving DecidableEq, Repr

/-- The filesystem: an association list from path to content, in creation
order. -/
abbrev Tree := List (String × FileC)

/-- Content at a path. -/
def tlookup (t : Tree) (p : String) : Option FileC :=
  (t.find? (fun kv => kv.1 == p)).map (fun kv => kv.2)

/-- os.path.exists. -/
def texists (t : Tree) (p : String) : Bool :=
  (t.find? (fun kv => kv.1 == p)).isSome

/-- Write a file: overwrite in place or append a new entry. -/
def twrite (t : Tree) (p : String) (c : FileC) : Tree :=
  if (t.find? (fun kv => kv.1 == p)).isSome then
    t.map (fun kv => if kv.1 == p then (p, c) else kv)
  else t ++ [(p, c)]

/-- Remove a directory subtree, like shutil.rmtree. -/
def removeUnder (t : Tree) (root : String) : Tree :=
  t.filter (fun kv => ! (listStarts (root ++ "/").data kv.1.data || kv.1 == root))

/-- External collaborators: requests.get (none is a network failure or a
non-2xx status, where raise_for_status throws) and Pillow's Image.open
(none means the bytes are not a decodable image). -/
structure Env where
  fetch : String → Option Bytes
  decode : Bytes → Option (Nat × Nat)

/-- Exceptions the pipeline can raise while resolving one asset. -/
inductive PErr where
  | fetchError
  | decodeError
  | parseError
  | ioError
deriving DecidableEq, Repr

/-- Run state: the filesystem plus an instrumentation counter of how many
image encodes (Pillow save calls that re-encode pixels) have run. -/
structure St where
  tree : Tree
  encodes : Nat
deriving DecidableEq, Repr

/-! ## Content store: download_remote_image and import_local_image -/

/-- download_remote_image from the source: fetch, hash, slugify the URL
basename, and write hash-name to the destination only if absent. -/
def download_remote_image (env : Env) (t : Tree) (url dest_dir : String) :
    Except PErr (Tree × String × String) :=
  match env.fetch url with
  | none => .error .fetchError
  | some data =>
      let h := hash12 data
      let base := slugify_name (filename_from_url url)
      let out := pjoin dest_dir (h ++ "-" ++ base)
      let t2 := if texists t out then t else twrite t out (.bytesF data)
      .ok (t2, out, h)

/-- import_local_image from the source: read the local bytes, hash, slugify
the basename, and write hash-name to the destination only if absent. -/
def import_local_image (t : Tree) (local_path dest_dir : String) :
    Except PErr (Tree × String × String) :=
  match tlookup t local_path with
  | some (.bytesF data) =>
      let h := hash12 data
      let base := slugify_name (basename local_path)
      let out := pjoin dest_dir (h ++ "-" ++ base)
      let t2 := if texists t out then t else twrite t out (.bytesF data)
      .ok (t2, out, h)
  | _ => .error .ioError

/-! ## Variant generator: make_variants -/

/-- Modelled from Pillow: the encoder output of im.save.  The repository
delegates pixel work to Pillow; the model represents the written file as a
deterministic function of the source bytes, target size, format and the
quality argument (none when the save_kwargs carry no quality). -/
def encode_bytes (src : Bytes) (wd ht : Nat) (ext : String) (q : Option Nat) :
    Bytes :=
  wd :: ht :: ((match q with | some n => [1, n] | none => [0]) ++
               ext.data.map Char.toNat ++ src)

/-- Size passed to im.resize at line 163: the target width and the truncated
scaled height with a floor of 1.  The Python source computes
int(h * (target / float(w))); on the exact rational this is the floor, which
is what Nat division gives. -/
def resize_size (w h target : Nat) : Nat × Nat := (target, max 1 (h * target / w))

/-- The quality keyword is passed only for formats that support it. -/
def quality_arg (ext : String) (q : Nat) : Option Nat :=
  let l := lowerStr ext
  if l == "webp" || l == "jpeg" || l == "jpg" || l == "png" then some q else none

/-- Insertion step of a stable ascending sort on the width component. -/
def insertByFst (x : Nat × String) : List (Nat × String) → List (Nat × String)
  | [] => [x]
  | y :: ys => if x.1 ≤ y.1 then x :: y :: ys else y :: insertByFst x ys

/-- list.sort(key=lambda t: t[0]) — an ascending sort on the width component;
it agrees with Python's stable sort on the duplicate-free widths produced
here. -/
def sortByFst (l : List (Nat × String)) : List (Nat × String) :=
  l.foldr insertByFst []

/-- Result of make_variants: the filesystem after the writes, the sorted
(width, path) pairs, the sizes passed to im.resize (instrumentation), and
how many saves re-encoded pixels (instrumentation). -/
structure MVOut where
  tree : Tree
  variants : List (Nat × String)
  resizes : List (Nat × Nat)
  encodes : Nat
deriving DecidableEq, Repr

/-- The per-width loop of make_variants: skip targets at or above the natural
width, otherwise resize, save and record the pair. -/
def mvLoop (srcBytes : Bytes) (w h : Nat) (stem ext out_dir : String) (q : Nat) :
    List Nat → Tree → Tree × List (Nat × String) × List (Nat × Nat) × Nat
  | [], t => (t, [], [], 0)
  | target :: rest, t =>
      if w ≤ target then mvLoop srcBytes w h stem ext out_dir q rest t
      else
        let size := resize_size w h target
        let out_path := pjoin out_dir (stem ++ "-" ++ toString target ++ "w." ++ ext)
        let t2 := twrite t out_path
          (.bytesF (encode_bytes srcBytes size.1 size.2 ext (quality_arg ext q)))
        let r := mvLoop srcBytes w h stem ext out_dir q rest t2
        (r.1, (target, out_path) :: r.2.1, size :: r.2.2.1, r.2.2.2 + 1)

/-- make_variants from the source: open and decode the image, derive the stem
and extension, produce each requested smaller width, then one entry at the
natural width (a byte copy when the format is keep, otherwise a re-encode),
and sort ascending by width. -/
def make_variants (env : Env) (t : Tree) (img_path out_dir : String)
    (widths : List Nat) (fmt : String) (q : Nat) : Except PErr MVOut :=
  match tlookup t img_path with
  | some (.bytesF srcBytes) =>
      match env.decode srcBytes with
      | none => .error .decodeError
      | some (w, h) =>
          let stem := slugify_name (splitext_base (basename img_path)).1
          let ext := if fmt != "keep" then fmt
                     else String.mk ((splitext_base (basename img_path)).2.data.dropWhile
                            (fun c => c == '.'))
          let r := mvLoop srcBytes w h stem ext out_dir q widths t
          let largest_path := pjoin out_dir (stem ++ "-" ++ toString w ++ "w." ++ ext)
          let final :=
            if fmt == "keep" then
              (twrite r.1 largest_path (.bytesF srcBytes), r.2.2.2)
            else
              (twrite r.1 largest_path
                 (.bytesF (encode_bytes srcBytes w h ext (some q))), r.2.2.2 + 1)
          .ok ⟨final.1, sortByFst (r.2.1 ++ [(w, largest_path)]), r.2.2.1, final.2⟩
  | _ => .error .decodeError

/-! ## Manifest cache: ensure_variants_with_cache, load and save -/

/-- The cache-miss path of ensure_variants_with_cache: generate, record the
paths plus a timestamp under the hash, return the new paths.  The Boolean in
the result records that the generator ran. -/
def ensure_generate (env : Env) (st : St) (downloaded_path content_hash var_dir : String)
    (widths : List Nat) (fmt : String) (q : Nat) (manifest : Manifest) (now : Nat) :
    Except PErr (St × List String × Manifest × Bool) :=
  match make_variants env st.tree downloaded_path var_dir widths fmt q with
  | .error e => .error e
  | .ok mv =>
      let variant_paths := mv.variants.map (fun vp => vp.2)
      .ok (⟨mv.tree, st.encodes + mv.encodes⟩, variant_paths,
           minsert manifest content_hash ⟨downloaded_path, variant_paths, now⟩, true)

/-- ensure_variants_with_cache from the source: return the recorded paths
when the hash is present and every recorded file exists, otherwise invoke
make_variants and record the fresh paths with a timestamp. -/
def ensure_variants_with_cache (env : Env) (st : St)
    (downloaded_path content_hash var_dir : String) (widths : List Nat)
    (fmt : String) (q : Nat) (manifest : Manifest) (now : Nat) :
    Except PErr (St × List String × Manifest × Bool) :=
  match mlookup manifest content_hash with
  | some entry =>
      if entry.variants.all (fun p => texists st.tree p) then
        .ok (st, entry.variants, manifest, false)
      else ensure_generate env st downloaded_path content_hash var_dir widths fmt q
             manifest now
  | none => ensure_generate env st downloaded_path content_hash var_dir widths fmt q
              manifest now

/-- manifest_path from the source (the images directory name is literal). -/
def manifest_path (dist_root : String) : String :=
  pjoin (pjoin dist_root "images") "manifest.json"

/-- load_manifest from the source: a missing file yields the empty mapping;
an existing file is json.load'ed, and a parse failure is an uncaught
exception. -/
def load_manifest (t : Tree) (dist_root : String) : Except PErr Manifest :=
  match tlookup t (manifest_path dist_root) with
  | none => .ok []
  | some (.manifestF (some m)) => .ok m
  | some _ => .error .parseError

/-- save_manifest from the source: serialise the mapping to the manifest
path. -/
def save_manifest (t : Tree) (dist_root : String) (m : Manifest) : Tree :=
  twrite t (manifest_path dist_root) (.manifestF (some m))

/-! ## Width extraction from variant basenames -/

/-- The HTML rewriter's regex search for a hyphen, digits, w, dot, then a
nonempty dot-free suffix at the end of the basename (line 277).  A match, if
any, sits at the last dot: the digits are the maximal run before the w, and
the character before them must be a hyphen. -/
def widthFromBasenameHtml (s : String) : Option Nat :=
  let r := s.data.reverse
  let suf := r.takeWhile (fun c => c != '.')
  match suf, r.dropWhile (fun c => c != '.') with
  | [], _ => none
  | _ :: _, '.' :: r2 =>
      match r2 with
      | 'w' :: r3 =>
          (match r3.takeWhile isDigitB, r3.dropWhile isDigitB with
           | d :: ds, '-' :: _ => some (digitsToNat (d :: ds).reverse)
           | _, _ => none)
      | _ => none
  | _, _ => none

/-- The CSS rewriter's regex search (line 231): the leftmost occurrence of a
hyphen, a nonempty digit run, w, dot, anywhere in the text. -/
def widthOfCssAux : List Char → Option Nat
  | [] => none
  | '-' :: rest =>
      (match rest.takeWhile isDigitB, rest.dropWhile isDigitB with
       | d :: ds, 'w' :: '.' :: _ => some (digitsToNat (d :: ds))
       | _, _ => widthOfCssAux rest)
  | _ :: rest => widthOfCssAux rest

/-- width_of from rewrite_css_urls: parsed width of the basename, 0 when the
pattern does not occur. -/
def width_of (path : String) : Nat :=
  (widthOfCssAux (basename path).data).getD 0

/-- max(variant_paths, key=width_of): fold keeping the first maximum. -/
def maxByWidth (ps : List String) (best : String) : String :=
  match ps with
  | [] => best
  | q :: qs => maxByWidth qs (if width_of best < width_of q then q else best)

/-- Pair extraction of process_one_image_url lines 275-280: keep the paths
whose basename matches the pattern, with their parsed widths, sorted
ascending by width. -/
def html_pairs (variant_paths : List String) : List (Nat × String) :=
  sortByFst (variant_paths.filterMap
    (fun p => (widthFromBasenameHtml (basename p)).map (fun n => (n, p))))

/-! ## Configuration -/

/-- The configuration keys the image pipeline reads, with CONFIG_DEFAULT
values. -/
structure Cfg where
  image_dir : String := "images"
  image_variants : List Nat := [480, 800, 1200, 1600, 2000]
  image_format : String := "webp"
  quality : Nat := 82
  download_images : Bool := true
deriving DecidableEq, Repr

/-! ## HTML reference rewriter -/

/-- process_one_image_url from the source: normalise a scheme-relative URL,
ingest remotely (exceptions propagate) or locally with the two-stage
candidate resolution (an unresolvable path returns none), resolve variants
through the cache (exceptions propagate), and extract the (width, path)
pairs.  Returns the updated state and manifest with the pairs, none when the
reference stays unresolved. -/
def process_one_image_url (env : Env) (cfg : Cfg) (st : St) (manifest : Manifest)
    (now : Nat) (dist_root html_dir : String) (src0 : String) :
    Except PErr (St × Manifest × Option (List (Nat × String))) :=
  let img_dir := pjoin dist_root cfg.image_dir
  let orig_dir := pjoin img_dir "original"
  let var_dir := pjoin img_dir "responsive"
  let src_abs := if strStarts "//" src0 then "https:" ++ src0 else src0
  let ing : Except PErr (Option (Tree × String × String)) :=
    if strStarts "http://" src_abs || strStarts "https://" src_abs then
      (download_remote_image env st.tree src_abs orig_dir).map some
    else
      let c1 := normpath (pjoin html_dir src_abs)
      let c2 := if texists st.tree c1 then c1
                else pjoin dist_root (lstripSlash src_abs)
      if ! texists st.tree c2 then .ok none
      else (import_local_image st.tree c2 orig_dir).map some
  match ing with
  | .error e => .error e
  | .ok none => .ok (st, manifest, none)
  | .ok (some (t2, downloaded, h)) =>
      match ensure_variants_with_cache env ⟨t2, st.encodes⟩ downloaded h var_dir
              cfg.image_variants cfg.image_format cfg.quality manifest now with
      | .error e => .error e
      | .ok (st2, variant_paths, manifest2, _) =>
          if variant_paths.isEmpty then .ok (st2, manifest2, none)
          else .ok (st2, manifest2, some (html_pairs variant_paths))

/-- The default sizing hint of line 302. -/
def default_sizes : String := "(max-width: 1200px) 100vw, 1200px"

/-- One srcset entry: the document-relative percent-encoded path, a space,
the width and a w. -/
def srcset_entry (html_dir : String) (wp : Nat × String) : String :=
  pyQuote (relpath wp.2 html_dir) ['/', ':'] ++ " " ++ toString wp.1 ++ "w"

/-- The attribute mutation of lines 290-303: src becomes the middle variant
by index (len // 2, clamped to the last index), srcset lists every pair, and
sizes gets the default only when the existing value is absent or falsy. -/
def apply_img_rewrite (html_dir : String) (pairs : List (Nat × String))
    (img : Img) : Img :=
  let mid := (pairs.getD (min (pairs.length / 2) (pairs.length - 1)) (0, "")).2
  let src_rel := pyQuote (relpath mid html_dir) ['/', ':']
  { img with
    src := some src_rel
    srcset := some (joinSep ", " (pairs.map (srcset_entry html_dir)))
    sizes := if img.sizes = none ∨ img.sizes = some "" then some default_sizes
             else img.sizes }

/-- The img loop of rewrite_img_tags lines 283-303: skip when downloads are
off, when src is absent or falsy, or when the pairs come back empty;
otherwise rewrite the element and mark the document changed.  Exceptions
from process_one_image_url propagate. -/
def imgLoop (env : Env) (cfg : Cfg) (now : Nat) (dist_root html_dir : String) :
    List Img → St → Manifest → Bool →
    Except PErr (List Img × St × Manifest × Bool)
  | [], st, m, changed => .ok ([], st, m, changed)
  | img :: rest, st, m, changed =>
      let skip : Except PErr (List Img × St × Manifest × Bool) :=
        match imgLoop env cfg now dist_root html_dir rest st m changed with
        | .error e => .error e
        | .ok (l, st2, m2, ch) => .ok (img :: l, st2, m2, ch)
      if ! cfg.download_images then skip
      else
        match img.src with
        | none => skip
        | some s =>
            if s == "" then skip
            else
              match process_one_image_url env cfg st m now dist_root html_dir s with
              | .error e => .error e
              | .ok (st2, m2, pairsO) =>
                  match pairsO with
                  | none =>
                      (match imgLoop env cfg now dist_root html_dir rest st2 m2 changed with
                       | .error e => .error e
                       | .ok (l, st3, m3, ch) => .ok (img :: l, st3, m3, ch))
                  | some [] =>
                      (match imgLoop env cfg now dist_root html_dir rest st2 m2 changed with
                       | .error e => .error e
                       | .ok (l, st3, m3, ch) => .ok (img :: l, st3, m3, ch))
                  | some (p :: ps) =>
                      let img2 := apply_img_rewrite html_dir (p :: ps) img
                      (match imgLoop env cfg now dist_root html_dir rest st2 m2 true with
                       | .error e => .error e
                       | .ok (l, st3, m3, ch) => .ok (img2 :: l, st3, m3, ch))

/-- rewrite_img_tags from the source, for the img elements of one HTML file
(the independent picture-source loop of lines 306-322 touches no claim and
is not modelled): parse the file, run the loop, and write the document back
only when something changed (prettify is the identity on the structural
document model). -/
def rewrite_img_tags (env : Env) (cfg : Cfg) (now : Nat)
    (dist_root file_path : String) (st : St) (m : Manifest) :
    Except PErr (St × Manifest) :=
  match tlookup st.tree file_path with
  | some (.htmlF imgs) =>
      (match imgLoop env cfg now dist_root (dirname file_path) imgs st m false with
       | .error e => .error e
       | .ok (imgs2, st2, m2, changed) =>
           if changed then
             .ok (⟨twrite st2.tree file_path (.htmlF imgs2), st2.encodes⟩, m2)
           else .ok (st2, m2))
  | _ => .ok (st, m)

/-! ## CSS reference rewriter -/

/-- Variant resolution shared tail of the CSS repl closure. -/
def css_ensure (env : Env) (cfg : Cfg) (now : Nat) (var_dir : String) (st : St)
    (m : Manifest) (downloaded h : String) :
    Except (PErr × St) (St × Manifest × Option (List String)) :=
  match ensure_variants_with_cache env st downloaded h var_dir
          cfg.image_variants cfg.image_format cfg.quality m now with
  | .error e => .error (e, st)
  | .ok (st2, paths, m2, _) => .ok (st2, m2, some paths)

/-- The body of the repl closure of rewrite_css_urls up to variant_paths
(lines 208-225): an error value carries the state at the moment the Python
exception is raised (files ingested before the raise stay on disk). -/
def css_resolve (env : Env) (cfg : Cfg) (now : Nat) (dist_root css_dir : String)
    (st : St) (m : Manifest) (url0 : String) :
    Except (PErr × St) (St × Manifest × Option (List String)) :=
  let img_dir := pjoin dist_root cfg.image_dir
  let orig_dir := pjoin img_dir "original"
  let var_dir := pjoin img_dir "responsive"
  let src_abs := if strStarts "//" url0 then "https:" ++ url0 else url0
  if strStarts "http://" src_abs || strStarts "https://" src_abs then
    match download_remote_image env st.tree src_abs orig_dir with
    | .error e => .error (e, st)
    | .ok (t2, downloaded, h) =>
        css_ensure env cfg now var_dir ⟨t2, st.encodes⟩ m downloaded h
  else
    let c1 := normpath (pjoin css_dir src_abs)
    let c2 := if texists st.tree c1 then c1
              else pjoin dist_root (lstripSlash src_abs)
    if ! texists st.tree c2 then .ok (st, m, none)
    else
      match import_local_image st.tree c2 orig_dir with
      | .error e => .error (e, st)
      | .ok (t2, downloaded, h) =>
          css_ensure env cfg now var_dir ⟨t2, st.encodes⟩ m downloaded h

/-- The repl closure of rewrite_css_urls for one matched token: on any
exception or an unresolved path the original token text stands verbatim;
on success the largest variant by width_of replaces it, relative to the CSS
directory and percent-encoded keeping slash and colon. -/
def css_repl (env : Env) (cfg : Cfg) (now : Nat) (dist_root css_dir : String)
    (st : St) (m : Manifest) (token url0 : String) : St × Manifest × String :=
  match css_resolve env cfg now dist_root css_dir st m url0 with
  | .error (_, stE) => (stE, m, token)
  | .ok (st2, m2, none) => (st2, m2, token)
  | .ok (st2, m2, some []) => (st2, m2, token)
  | .ok (st2, m2, some (p :: ps)) =>
      let largest := maxByWidth ps p
      (st2, m2, "url(" ++ pyQuote (relpath largest css_dir) ['/', ':'] ++ ")")

/-! ## The run: copy_src and the image portion of main -/

/-- copy_src from the source.  The input tree is the already-read content of
the source folder or archive, as relative paths.  A zip input is extracted
over the output directory; a folder input first removes the output directory
wholesale and then copies. -/
def copy_src (isZip : Bool) (input : List (String × FileC)) (outdir : String)
    (world : Tree) : Tree :=
  if isZip then
    input.foldl (fun t rc => twrite t (pjoin outdir rc.1) rc.2) world
  else
    input.foldl (fun t rc => twrite t (pjoin outdir rc.1) rc.2)
      (removeUnder world outdir)

/-- The HTML files of the tree in walk order (names are compared lowercased,
as main does). -/
def htmlFiles (t : Tree) : List String :=
  (t.filter (fun kv => strEnds ".html" (lowerStr kv.1))).map (fun kv => kv.1)

/-- Fold rewrite_img_tags over the HTML files, as the loop at lines 438-441. -/
def foldHtml (env : Env) (cfg : Cfg) (now : Nat) (dist_root : String) :
    List String → St → Manifest → Except PErr (St × Manifest)
  | [], st, m => .ok (st, m)
  | p :: ps, st, m =>
      match rewrite_img_tags env cfg now dist_root p st m with
      | .error e => .error e
      | .ok (st2, m2) => foldHtml env cfg now dist_root ps st2 m2

/-- The pipeline of main for the image core, in source order: load the
manifest, copy the source tree, process every HTML file, save the manifest.
The excluded collaborators main also calls (extensionless-HTML renaming,
link rewriting, ensure_index, the CSS walk and the formatting pass) are the
identity on the trees considered in the theorems below: every input file
name carries an extension, an index.html exists, no CSS file is present, and
formatting is modelled structurally; they are therefore not repeated here. -/
def mainRun (env : Env) (cfg : Cfg) (isZip : Bool) (input : List (String × FileC))
    (dist_root : String) (world : Tree) (now : Nat) : Except PErr (St × Manifest) :=
  match load_manifest world dist_root with
  | .error e => .error e
  | .ok manifest =>
      let world2 := copy_src isZip input dist_root world
      match foldHtml env cfg now dist_root (htmlFiles world2) ⟨world2, 0⟩ manifest with
      | .error e => .error e
      | .ok (st1, m1) => .ok (⟨save_manifest st1.tree dist_root m1, st1.encodes⟩, m1)

/-- Erase the generation timestamps of every manifest file in the tree, for
comparing output trees up to timestamps. -/
def eraseTs (t : Tree) : Tree :=
  t.map (fun kv => (kv.1,
    match kv.2 with
    | .manifestF (some m) =>
        .manifestF (some (m.map (fun ke => (ke.1, { ke.2 with ts := 0 }))))
    | c => c))

/-! ## Concrete scenario used by several theorems below -/

/-- A network that always fails and a decoder that accepts only the
three-byte image 9 9 9 at natural size 40 by 30. -/
def scnEnv : Env :=
  ⟨fun _ => none, fun b => if b == [9, 9, 9] then some (40, 30) else none⟩

/-- The exported input tree: one page referencing one local image. -/
def scnInput : List (String × FileC) :=
  [("index.html", .htmlF [⟨some "pic.png", none, none⟩]),
   ("pic.png", .bytesF [9, 9, 9])]

/-- First pipeline run from an empty output tree at time t. -/
def scnRun (world : Tree) (t : Nat) : St × Manifest :=
  match mainRun scnEnv {} false scnInput "dist" world t with
  | .ok r => r
  | .error _ => (⟨[], 0⟩, [])

/-! ## Concrete scenario objects used by the claim theorems -/

/-- C2 counterexample: ingesting byte-identical content from two URLs whose
basenames differ stores two distinct originals at two distinct paths (the
destination name is hash plus slugified basename), refuting the claim that
identical bytes always yield the same on-disk original path and exactly one
stored file. -/
def c2EnvTwo : Env :=
  ⟨fun u =>
    if u == "https://cdn.example.com/a.png" || u == "https://cdn.example.com/b.png"
    then some [1, 2, 3] else none,
   fun _ => none⟩

/-- C2 amended witness at a concrete input: two hosts serving identical
bytes under the same basename, and the same bytes also present locally. -/
def c2EnvW : Env :=
  ⟨fun u =>
    if u == "https://x.example.com/pic.png" || u == "https://y.example.com/pic.png"
    then some [1, 2, 3] else none,
   fun _ => none⟩

/-- C4 amended: on a directory input the second run re-encodes exactly as
the first (copy_src first removes the output tree, emptying the on-disk
cache, so every cache lookup misses) and the two output trees agree except
for the generation timestamps recorded in the manifest. -/
instance instDecEqExcept {α β : Type} [DecidableEq α] [DecidableEq β] :
    DecidableEq (Except α β) := fun a b =>
  match a, b with
  | .error x, .error y => decidable_of_iff (x = y) (by simp)
  | .ok x, .ok y => decidable_of_iff (x = y) (by simp)
  | .error _, .ok _ => isFalse (fun hc => Except.noConfusion hc)
  | .ok _, .error _ => isFalse (fun hc => Except.noConfusion hc)

/-- C6 counterexample companion, written from the spec's words for
comparison: round(height * width_target / natural_width) on the exact
ratio, with Python's round-half-to-even tie rule. -/
def spec_round_height (h t w : Nat) : Nat :=
  let n := h * t
  let q := n / w
  let r := n % w
  if 2 * r < w then q
  else if w < 2 * r then q + 1
  else if q % 2 = 0 then q else q + 1

/-- Decoder for the C6 scenario: the one-byte file 5 is an 8 by 10 image. -/
def c6Env : Env := ⟨fun _ => none, fun b => if b == [5] then some (8, 10) else none⟩

/-- Sizes the C6 scenario passes to the resizer. -/
def c6Resizes : List (Nat × Nat) :=
  match make_variants c6Env [("o/img.png", FileC.bytesF [5])] "o/img.png" "v"
          [7] "webp" 82 with
  | .ok mv => mv.resizes
  | .error _ => []

/-- Concrete make_variants result of the C6 scenario. -/
def c6MVFull : MVOut :=
  ⟨[("o/img.png", .bytesF [5]),
    ("v/img-7w.webp", .bytesF [7, 8, 1, 82, 119, 101, 98, 112, 5]),
    ("v/img-8w.webp", .bytesF [8, 10, 1, 82, 119, 101, 98, 112, 5])],
   [(7, "v/img-7w.webp"), (8, "v/img-8w.webp")],
   [(7, 8)], 2⟩

/-- Decoder and inputs of the ladder-completeness instance of C7. -/
def c7Env : Env :=
  ⟨fun _ => none, fun b => if b == [6] then some (1000, 700) else none⟩

/-- Variant list generated in the C7 ladder-completeness instance:
configured widths 480-2000, natural width 1000. -/
def c7Variants : List (Nat × String) :=
  match make_variants c7Env [("o/p.png", FileC.bytesF [6])] "o/p.png" "v"
          [480, 800, 1200, 1600, 2000] "webp" 82 with
  | .ok mv => mv.variants
  | .error _ => []

/-- Tree of the C8 counterexample: the img element already carries a sizes
attribute with the empty-string value. -/
def c8Tree : Tree :=
  [("dist/index.html", .htmlF [⟨some "pic.png", none, some ""⟩]),
   ("dist/pic.png", .bytesF [9, 9, 9])]

/-- Document after rewriting the C8 counterexample tree. -/
def c8DocAfter : Option FileC :=
  match rewrite_img_tags scnEnv {} 0 "dist" "dist/index.html" ⟨c8Tree, 0⟩ [] with
  | .ok (st2, _) => tlookup st2.tree "dist/index.html"
  | .error _ => none

/-- State after the resolution step of the C8 amended witness. -/
def c8wSt2 : St :=
  ⟨[("dist/index.html", .htmlF [⟨some "pic.png", none, none⟩]),
    ("dist/pic.png", .bytesF [9, 9, 9]),
    ("dist/images/original/b80ace4c3f8f-pic.png", .bytesF [9, 9, 9]),
    ("dist/images/responsive/b80ace4c3f8f-pic-40w.webp",
     .bytesF [40, 30, 1, 82, 119, 101, 98, 112, 9, 9, 9])], 1⟩

/-- Manifest after the resolution step of the C8 amended witness. -/
def c8wM2 : Manifest :=
  [("b80ace4c3f8f",
    ⟨"dist/images/original/b80ace4c3f8f-pic.png",
     ["dist/images/responsive/b80ace4c3f8f-pic-40w.webp"], 77⟩)]

/-- State after the successful resolution of the C9 witness. -/
def c9wSt2 : St :=
  ⟨[("dist/style.css", .bytesF []),
    ("dist/pic.png", .bytesF [9, 9, 9]),
    ("dist/images/original/b80ace4c3f8f-pic.png", .bytesF [9, 9, 9]),
    ("dist/images/responsive/b80ace4c3f8f-pic-40w.webp",
     .bytesF [40, 30, 1, 82, 119, 101, 98, 112, 9, 9, 9])], 1⟩

/-- Configuration of the C10 witness: keep the original format. -/
def c10Cfg : Cfg := { image_format := "keep" }

/-- State after the C10 witness resolution: the variants exist on disk with
bare-dot names. -/
def c10wSt2 : St :=
  ⟨[("dist/index.html", .htmlF [⟨some "pic", none, none⟩]),
    ("dist/pic", .bytesF [9, 9, 9]),
    ("dist/images/original/b80ace4c3f8f-pic", .bytesF [9, 9, 9]),
    ("dist/images/responsive/b80ace4c3f8f-pic-40w.", .bytesF [9, 9, 9])], 0⟩

/-- Manifest after the C10 witness resolution. -/
def c10wM2 : Manifest :=
  [("b80ace4c3f8f",
    ⟨"dist/images/original/b80ace4c3f8f-pic",
     ["dist/images/responsive/b80ace4c3f8f-pic-40w."], 77⟩)]

/-- Variant set generated in the C10 witness. -/
def c10wMV : MVOut :=
  ⟨[("dist/images/original/b80ace4c3f8f-pic", .bytesF [9, 9, 9]),
    ("dist/images/responsive/b80ace4c3f8f-pic-40w.", .bytesF [9, 9, 9])],
   [(40, "dist/images/responsive/b80ace4c3f8f-pic-40w.")], [], 0⟩

/-! ## Supporting lemmas -/

theorem insertByFst_of_le (x : Nat × String) (l : List (Nat × String))
    (hle : ∀ y ∈ l, x.1 ≤ y.1) : insertByFst x l = x :: l := by
  cases l with
  | nil => rfl
  | cons y ys => simp [insertByFst, hle y (List.mem_cons_self y ys)]

theorem sortByFst_eq_self (l : List (Nat × String))
    (h : l.Pairwise (fun a b => a.1 ≤ b.1)) : sortByFst l = l := by
  induction l with
  | nil => rfl
  | cons x xs ih =>
      rcases List.pairwise_cons.mp h with ⟨hx, hxs⟩
      have hstep : sortByFst (x :: xs) = insertByFst x (sortByFst xs) := rfl
      rw [hstep, ih hxs, insertByFst_of_le x xs hx]

theorem mem_insertByFst {y x : Nat × String} {l : List (Nat × String)} :
    y ∈ insertByFst x l ↔ y = x ∨ y ∈ l := by
  induction l with
  | nil => simp [insertByFst]
  | cons z zs ih =>
      by_cases h : x.1 ≤ z.1
      · simp [insertByFst, h]
      · simp [insertByFst, h, ih]
        tauto

theorem mem_sortByFst {y : Nat × String} {l : List (Nat × String)} :
    y ∈ sortByFst l ↔ y ∈ l := by
  induction l with
  | nil => simp [sortByFst]
  | cons x xs ih =>
      have hstep : sortByFst (x :: xs) = insertByFst x (sortByFst xs) := rfl
      rw [hstep]
      simp [mem_insertByFst, ih]

theorem mvLoop_variants (srcBytes : Bytes) (w h : Nat) (stem ext d : String)
    (q : Nat) (ws : List Nat) : ∀ t : Tree,
    (mvLoop srcBytes w h stem ext d q ws t).2.1 =
      (ws.filter (fun tg => decide (tg < w))).map
        (fun tg => (tg, pjoin d (stem ++ "-" ++ toString tg ++ "w." ++ ext))) := by
  induction ws with
  | nil => intro t; rfl
  | cons tg rest ih =>
      intro t
      by_cases hlt : w ≤ tg
      · simp [mvLoop, hlt, Nat.not_lt.mpr hlt, ih]
      · simp [mvLoop, hlt, Nat.lt_of_not_le hlt, ih]

theorem mvLoop_resizes (srcBytes : Bytes) (w h : Nat) (stem ext d : String)
    (q : Nat) (ws : List Nat) : ∀ t : Tree,
    (mvLoop srcBytes w h stem ext d q ws t).2.2.1 =
      (ws.filter (fun tg => decide (tg < w))).map
        (fun tg => (tg, max 1 (h * tg / w))) := by
  induction ws with
  | nil => intro t; rfl
  | cons tg rest ih =>
      intro t
      by_cases hlt : w ≤ tg
      · simp [mvLoop, hlt, Nat.not_lt.mpr hlt, ih]
      · simp [mvLoop, hlt, Nat.lt_of_not_le hlt, ih, resize_size]

theorem maxByWidth_sorted (ps : List String) : ∀ (p last : String),
    (p :: ps).Pairwise (fun a b => width_of a < width_of b) →
    (p :: ps).getLast? = some last → maxByWidth ps p = last := by
  induction ps with
  | nil =>
      intro p last _ hl
      simp only [List.getLast?_singleton, Option.some.injEq] at hl
      simpa [maxByWidth] using hl
  | cons q qs ih =>
      intro p last hp hl
      rcases List.pairwise_cons.mp hp with ⟨hpq, hq⟩
      have hlt : width_of p < width_of q := hpq q (List.mem_cons_self q qs)
      have hstep : maxByWidth (q :: qs) p =
          maxByWidth qs (if width_of p < width_of q then q else p) := rfl
      rw [hstep, if_pos hlt]
      exact ih q last hq (by simpa [List.getLast?_cons_cons] using hl)

theorem getLast?_append_right (l1 l2 : List Char) (h : l2 ≠ []) :
    (l1 ++ l2).getLast? = l2.getLast? := by
  rw [List.getLast?_append]
  exact Option.or_of_isSome (List.getLast?_isSome.mpr h)

theorem widthFromBasenameHtml_dot (s : String)
    (hd : s.data.getLast? = some '.') : widthFromBasenameHtml s = none := by
  rcases hr : s.data.reverse with _ | ⟨c, cs⟩
  · exfalso
    have hnil : s.data = [] := by
      have := congrArg List.reverse hr
      simpa using this
    rw [hnil] at hd
    exact Option.noConfusion hd
  · have h1 : s.data.reverse.head? = some '.' := by
      rw [List.head?_reverse]; exact hd
    rw [hr] at h1
    have hc : c = '.' := by simpa using h1
    subst hc
    unfold widthFromBasenameHtml
    rw [hr]
    rfl

theorem basename_getLast (p : String) (hd : p.data.getLast? = some '.') :
    (basename p).data.getLast? = some '.' := by
  rcases hr : p.data.reverse with _ | ⟨c, cs⟩
  · exfalso
    have hnil : p.data = [] := by
      have := congrArg List.reverse hr
      simpa using this
    rw [hnil] at hd
    exact Option.noConfusion hd
  · have h1 : p.data.reverse.head? = some '.' := by
      rw [List.head?_reverse]; exact hd
    rw [hr] at h1
    have hc : c = '.' := by simpa using h1
    subst hc
    show (String.mk ((p.data.reverse.takeWhile (fun c => c != '/')).reverse)).data.getLast?
        = some '.'
    rw [hr]
    have hstep : List.takeWhile (fun c => c != '/') ('.' :: cs) =
        '.' :: List.takeWhile (fun c => c != '/') cs := by
      simp [List.takeWhile_cons]
    rw [hstep]
    simp [List.getLast?_reverse]

/-! ## Claim theorems -/

/-- C1: the claim is right about the intended behaviour but the code lacks
the guard: evaluating the HTML rewriter on a document whose single img
carries a remote src whose fetch fails, the exception raised inside
download_remote_image (requests raise_for_status) propagates out of
rewrite_img_tags — there is no try/except around process_one_image_url, so
the element is not left in place and processing does not continue; the whole
document rewrite (and with it the run) aborts. -/
theorem c1_fetch_error_aborts :
    rewrite_img_tags scnEnv {} 0 "dist" "dist/index.html"
      ⟨[("dist/index.html",
         FileC.htmlF [⟨some "https://cdn.example.com/a.png", none, none⟩])], 0⟩ []
      = .error .fetchError := by rfl

theorem c2_counterexample :
    download_remote_image c2EnvTwo [] "https://cdn.example.com/a.png"
        "dist/images/original" =
      .ok ([("dist/images/original/7037807198c2-a.png", .bytesF [1, 2, 3])],
           "dist/images/original/7037807198c2-a.png", "7037807198c2") ∧
    download_remote_image c2EnvTwo
        [("dist/images/original/7037807198c2-a.png", .bytesF [1, 2, 3])]
        "https://cdn.example.com/b.png" "dist/images/original" =
      .ok ([("dist/images/original/7037807198c2-a.png", .bytesF [1, 2, 3]),
            ("dist/images/original/7037807198c2-b.png", .bytesF [1, 2, 3])],
           "dist/images/original/7037807198c2-b.png", "7037807198c2") ∧
    "dist/images/original/7037807198c2-a.png" ≠
      "dist/images/original/7037807198c2-b.png" :=
  ⟨rfl, rfl, by decide⟩

/-- C2 amended: byte-identical ingestions (remote or local) always yield the
same content hash; the stored path is the hash joined with the slugified
source basename, so it coincides exactly when the slugified basenames
coincide; and when the destination file already exists the tree is left
unchanged (write-once per destination name). -/
theorem c2_amended (env : Env) (t : Tree) (u1 u2 lp d : String) (b : Bytes)
    (h1 : env.fetch u1 = some b) (h2 : env.fetch u2 = some b)
    (hslug : slugify_name (filename_from_url u2) = slugify_name (filename_from_url u1))
    (hl : tlookup t lp = some (.bytesF b))
    (hslug2 : slugify_name (basename lp) = slugify_name (filename_from_url u1)) :
    (∃ t1, download_remote_image env t u1 d =
        .ok (t1, pjoin d (hash12 b ++ "-" ++ slugify_name (filename_from_url u1)),
             hash12 b) ∧
      (texists t (pjoin d (hash12 b ++ "-" ++ slugify_name (filename_from_url u1))) = true →
        t1 = t)) ∧
    (∃ t2, download_remote_image env t u2 d =
        .ok (t2, pjoin d (hash12 b ++ "-" ++ slugify_name (filename_from_url u1)),
             hash12 b) ∧
      (texists t (pjoin d (hash12 b ++ "-" ++ slugify_name (filename_from_url u1))) = true →
        t2 = t)) ∧
    (∃ t3, import_local_image t lp d =
        .ok (t3, pjoin d (hash12 b ++ "-" ++ slugify_name (filename_from_url u1)),
             hash12 b) ∧
      (texists t (pjoin d (hash12 b ++ "-" ++ slugify_name (filename_from_url u1))) = true →
        t3 = t)) := by
  refine
    ⟨⟨if texists t (pjoin d (hash12 b ++ "-" ++ slugify_name (filename_from_url u1))) = true
        then t
        else twrite t (pjoin d (hash12 b ++ "-" ++ slugify_name (filename_from_url u1)))
          (FileC.bytesF b), ?_, ?_⟩,
     ⟨if texists t (pjoin d (hash12 b ++ "-" ++ slugify_name (filename_from_url u1))) = true
        then t
        else twrite t (pjoin d (hash12 b ++ "-" ++ slugify_name (filename_from_url u1)))
          (FileC.bytesF b), ?_, ?_⟩,
     ⟨if texists t (pjoin d (hash12 b ++ "-" ++ slugify_name (filename_from_url u1))) = true
        then t
        else twrite t (pjoin d (hash12 b ++ "-" ++ slugify_name (filename_from_url u1)))
          (FileC.bytesF b), ?_, ?_⟩⟩
  · simp [download_remote_image, h1]
  · intro hex; simp [hex]
  · simp [download_remote_image, h2, hslug]
  · intro hex; simp [hex]
  · simp [import_local_image, hl, hslug2]
  · intro hex; simp [hex]

theorem c2_amended_witness :
    (∃ t1, download_remote_image c2EnvW [("dist/pic.png", FileC.bytesF [1, 2, 3])]
          "https://x.example.com/pic.png" "o" =
        .ok (t1, pjoin "o" (hash12 [1, 2, 3] ++ "-" ++
              slugify_name (filename_from_url "https://x.example.com/pic.png")),
             hash12 [1, 2, 3]) ∧
      (texists [("dist/pic.png", FileC.bytesF [1, 2, 3])]
          (pjoin "o" (hash12 [1, 2, 3] ++ "-" ++
            slugify_name (filename_from_url "https://x.example.com/pic.png"))) = true →
        t1 = [("dist/pic.png", FileC.bytesF [1, 2, 3])])) ∧
    (∃ t2, download_remote_image c2EnvW [("dist/pic.png", FileC.bytesF [1, 2, 3])]
          "https://y.example.com/pic.png" "o" =
        .ok (t2, pjoin "o" (hash12 [1, 2, 3] ++ "-" ++
              slugify_name (filename_from_url "https://x.example.com/pic.png")),
             hash12 [1, 2, 3]) ∧
      (texists [("dist/pic.png", FileC.bytesF [1, 2, 3])]
          (pjoin "o" (hash12 [1, 2, 3] ++ "-" ++
            slugify_name (filename_from_url "https://x.example.com/pic.png"))) = true →
        t2 = [("dist/pic.png", FileC.bytesF [1, 2, 3])])) ∧
    (∃ t3, import_local_image [("dist/pic.png", FileC.bytesF [1, 2, 3])]
          "dist/pic.png" "o" =
        .ok (t3, pjoin "o" (hash12 [1, 2, 3] ++ "-" ++
              slugify_name (filename_from_url "https://x.example.com/pic.png")),
             hash12 [1, 2, 3]) ∧
      (texists [("dist/pic.png", FileC.bytesF [1, 2, 3])]
          (pjoin "o" (hash12 [1, 2, 3] ++ "-" ++
            slugify_name (filename_from_url "https://x.example.com/pic.png"))) = true →
        t3 = [("dist/pic.png", FileC.bytesF [1, 2, 3])])) :=
  c2_amended c2EnvW [("dist/pic.png", FileC.bytesF [1, 2, 3])]
    "https://x.example.com/pic.png" "https://y.example.com/pic.png"
    "dist/pic.png" "o" [1, 2, 3] rfl rfl rfl rfl rfl

/-- C3 counterexample: when the manifest file exists but its JSON does not
parse, load_manifest raises (json.load has no surrounding try/except), so
loading is not treated as having no cache. -/
theorem c3_counterexample :
    load_manifest [("dist/images/manifest.json", FileC.manifestF none)] "dist" =
      .error .parseError := by rfl

/-- C3 amended: a missing manifest file is treated as no cache (the empty
mapping); an existing but unparseable manifest file raises out of
load_manifest and aborts the run. -/
theorem c3_amended (t : Tree) (d : String) :
    (tlookup t (manifest_path d) = none → load_manifest t d = .ok []) ∧
    (tlookup t (manifest_path d) = some (.manifestF none) →
      load_manifest t d = .error .parseError) := by
  constructor <;> intro h <;> simp [load_manifest, h]

/-- C3 amended witness: an empty output tree loads the empty mapping. -/
theorem c3_amended_witness : load_manifest ([] : Tree) "dist" = .ok [] :=
  (c3_amended [] "dist").1 rfl

/-- C5: the manifest cache returns the recorded paths unchanged without
running the generator exactly when the hash is present and every recorded
variant exists on disk; otherwise it runs make_variants, records the fresh
paths with the generation timestamp under the hash, and returns them (the
final Boolean of the result records whether the generator ran). -/
theorem c5_cache_spec (env : Env) (st : St) (dp ch vd : String) (ws : List Nat)
    (fmt : String) (q : Nat) (m : Manifest) (now : Nat) :
    (∀ e, mlookup m ch = some e →
      e.variants.all (fun p => texists st.tree p) = true →
      ensure_variants_with_cache env st dp ch vd ws fmt q m now =
        .ok (st, e.variants, m, false)) ∧
    ((mlookup m ch = none ∨
      ∃ e, mlookup m ch = some e ∧
           e.variants.all (fun p => texists st.tree p) = false) →
      ∀ mv, make_variants env st.tree dp vd ws fmt q = .ok mv →
        ensure_variants_with_cache env st dp ch vd ws fmt q m now =
          .ok (⟨mv.tree, st.encodes + mv.encodes⟩,
               mv.variants.map (fun vp => vp.2),
               minsert m ch ⟨dp, mv.variants.map (fun vp => vp.2), now⟩, true)) := by
  constructor
  · intro e he hall
    simp [ensure_variants_with_cache, he, hall]
  · rintro (hnone | ⟨e, he, hall⟩) mv hmv
    · simp [ensure_variants_with_cache, hnone, ensure_generate, hmv]
    · simp [ensure_variants_with_cache, he, hall, ensure_generate, hmv]

/-- C5 witness: a cache hit at a concrete manifest and tree returns the
recorded path list unchanged without generating. -/
theorem c5_cache_spec_witness :
    ensure_variants_with_cache scnEnv ⟨[("dist/v1", FileC.bytesF [])], 0⟩ "o" "h" "vd"
      [] "webp" 82 [("h", ⟨"o", ["dist/v1"], 5⟩)] 7 =
      .ok (⟨[("dist/v1", FileC.bytesF [])], 0⟩, ["dist/v1"],
           [("h", ⟨"o", ["dist/v1"], 5⟩)], false) :=
  (c5_cache_spec scnEnv ⟨[("dist/v1", FileC.bytesF [])], 0⟩ "o" "h" "vd" [] "webp" 82
    [("h", ⟨"o", ["dist/v1"], 5⟩)] 7).1 ⟨"o", ["dist/v1"], 5⟩ rfl (by decide)

/-- C4 counterexample: running the pipeline twice on the same directory
input (first from an empty manifest, then from the populated one) performs
an encode on the second run (1, not 0) and produces a different manifest
file (fresh timestamp), refuting both the no-re-encoding and the
byte-identical-output parts of the claim: copy_src removes the output
directory, so the recorded variant files are gone and the cache misses. -/
theorem c4_counterexample :
    (scnRun (scnRun [] 100).1.tree 200).1.encodes = 1 ∧
    tlookup (scnRun (scnRun [] 100).1.tree 200).1.tree (manifest_path "dist") ≠
      tlookup (scnRun [] 100).1.tree (manifest_path "dist") :=
  ⟨rfl, by decide⟩

theorem c4_amended (t1 : Nat) :
    mainRun scnEnv {} false scnInput "dist" [] t1 = .ok (scnRun [] t1) ∧
    (scnRun [] t1).1.encodes = 1 ∧
    mainRun scnEnv {} false scnInput "dist" (scnRun [] 100).1.tree 200 =
      .ok (scnRun (scnRun [] 100).1.tree 200) ∧
    (scnRun (scnRun [] 100).1.tree 200).1.encodes = 1 ∧
    eraseTs (scnRun (scnRun [] 100).1.tree 200).1.tree =
      eraseTs (scnRun [] 100).1.tree ∧
    (scnRun (scnRun [] 100).1.tree 200).1.tree ≠ (scnRun [] 100).1.tree :=
  ⟨rfl, rfl, by decide, rfl, by decide, by decide⟩

/-- C6 counterexample: for a source of natural size (8, 10) and requested
width 7, the generator resizes to height 8 (the truncated value
int(10 * 7 / 8) = 8), whereas the claim's round(10 * 7 / 8) = round(8.75)
is 9. -/
theorem c6_counterexample :
    c6Resizes = [(7, 8)] ∧ max 1 (spec_round_height 10 7 8) = 9 ∧ (8 : Nat) ≠ 9 := by
  refine ⟨rfl, by decide, by decide⟩

/-- C6 amended: for every requested width strictly below the natural width,
the generator resizes to the truncated (floored) scaled height with a
minimum of 1 — Nat division models the float truncation int(h * (t / w)),
exact whenever t / w is a dyadic rational, as in the counterexample. -/
theorem c6_amended (env : Env) (t : Tree) (p d fmt : String) (q : Nat)
    (b : Bytes) (w h : Nat) (ws : List Nat) (mv : MVOut)
    (hf : tlookup t p = some (.bytesF b)) (hd : env.decode b = some (w, h))
    (hmv : make_variants env t p d ws fmt q = .ok mv) :
    mv.resizes = (ws.filter (fun tg => decide (tg < w))).map
      (fun tg => (tg, max 1 (h * tg / w))) := by
  simp only [make_variants, hf, hd, Except.ok.injEq] at hmv
  subst hmv
  simpa using mvLoop_resizes b w h
    (slugify_name (splitext_base (basename p)).1)
    (if fmt != "keep" then fmt
     else String.mk ((splitext_base (basename p)).2.data.dropWhile (fun c => c == '.')))
    d q ws t

/-- C6 amended witness: the scenario of the counterexample satisfies the
amended (floor) formula. -/
theorem c6_amended_witness :
    c6MVFull.resizes = ([7].filter (fun tg => decide (tg < 8))).map
      (fun tg => (tg, max 1 (10 * tg / 8))) :=
  c6_amended c6Env [("o/img.png", FileC.bytesF [5])] "o/img.png" "v" "webp" 82
    [5] 8 10 [7] c6MVFull rfl rfl rfl

/-- Sorting the generated pair list is the identity when the requested
widths are strictly ascending: the pairs are built in requested order,
keyed by their width. -/
theorem sortByFst_variants_self (w : Nat) (ws : List Nat) (f : Nat → Nat × String)
    (hfst : ∀ tg, (f tg).1 = tg) (hs : ws.Pairwise (· < ·)) :
    sortByFst ((ws.filter (fun tg => decide (tg < w))).map f ++ [f w]) =
      (ws.filter (fun tg => decide (tg < w))).map f ++ [f w] := by
  have hflt : ∀ tg ∈ ws.filter (fun tg => decide (tg < w)), tg < w := by
    intro tg htg
    simpa using (List.mem_filter.mp htg).2
  have hfpw : (ws.filter (fun tg => decide (tg < w))).Pairwise (· < ·) :=
    hs.sublist (List.filter_sublist ws)
  apply sortByFst_eq_self
  rw [List.pairwise_append]
  refine ⟨?_, List.pairwise_singleton _ _, ?_⟩
  · rw [List.pairwise_map]
    exact hfpw.imp (fun {a b} hab => by rw [hfst, hfst]; exact Nat.le_of_lt hab)
  · intro x hx y hy
    rcases List.mem_map.mp hx with ⟨tg, htg, rfl⟩
    rcases List.mem_singleton.mp hy with rfl
    rw [hfst, hfst]
    exact Nat.le_of_lt (hflt tg htg)

/-- The widths of the generated pair list are the filtered requested widths
followed by the natural width. -/
theorem map_fst_variants (w : Nat) (ws : List Nat) (f : Nat → Nat × String)
    (hfst : ∀ tg, (f tg).1 = tg) :
    ((ws.filter (fun tg => decide (tg < w))).map f ++ [f w]).map Prod.fst =
      ws.filter (fun tg => decide (tg < w)) ++ [w] := by
  rw [List.map_append, List.map_map]
  simp [Function.comp_def, hfst]

/-- The filtered widths followed by the natural width are strictly
ascending. -/
theorem pairwise_filter_concat (w : Nat) (ws : List Nat)
    (hs : ws.Pairwise (· < ·)) :
    (ws.filter (fun tg => decide (tg < w)) ++ [w]).Pairwise (· < ·) := by
  rw [List.pairwise_append]
  refine ⟨hs.sublist (List.filter_sublist ws), List.pairwise_singleton _ _, ?_⟩
  intro x hx y hy
  rcases List.mem_singleton.mp hy with rfl
  simpa using (List.mem_filter.mp hx).2

/-- C7: for strictly ascending requested widths the generated variant
widths are exactly the requested widths below the natural width followed by
the natural width — strictly ascending, requested widths at or above the
natural width contribute nothing, the last width is the natural width — and
in the concrete instance with widths 480, 800, 1200, 1600, 2000 over a
natural width of 1000 the ladder is 480, 800, 1000. -/
theorem c7_widths (env : Env) (t : Tree) (p d fmt : String) (q : Nat)
    (b : Bytes) (w h : Nat) (ws : List Nat) (mv : MVOut)
    (hf : tlookup t p = some (.bytesF b)) (hd : env.decode b = some (w, h))
    (hs : ws.Pairwise (· < ·))
    (hmv : make_variants env t p d ws fmt q = .ok mv) :
    mv.variants.map Prod.fst = ws.filter (fun tg => decide (tg < w)) ++ [w] ∧
    (mv.variants.map Prod.fst).Pairwise (· < ·) ∧
    (mv.variants.map Prod.fst).getLast? = some w ∧
    (∀ tg ∈ ws, w < tg → tg ∉ mv.variants.map Prod.fst) ∧
    c7Variants.map Prod.fst = [480, 800, 1000] := by
  obtain ⟨A, B, C, D⟩ := mv
  simp only [make_variants, hf, hd, Except.ok.injEq, MVOut.mk.injEq] at hmv
  obtain ⟨hA, hB, hC, hD⟩ := hmv
  rw [mvLoop_variants] at hB
  rw [sortByFst_variants_self w ws _ (fun tg => rfl) hs] at hB
  have hmap : B.map Prod.fst = ws.filter (fun tg => decide (tg < w)) ++ [w] := by
    rw [← hB]
    exact map_fst_variants w ws _ (fun tg => rfl)
  have hvv : (⟨A, B, C, D⟩ : MVOut).variants = B := rfl
  rw [hvv, hmap]
  refine ⟨rfl, pairwise_filter_concat w ws hs, List.getLast?_concat _, ?_, by decide⟩
  intro tg htg hlt hmem
  rcases List.mem_append.mp hmem with hmem | hmem
  · have h1 : tg < w := by simpa using (List.mem_filter.mp hmem).2
    exact Nat.lt_irrefl tg (Nat.lt_trans h1 hlt)
  · rcases List.mem_singleton.mp hmem with rfl
    exact Nat.lt_irrefl tg hlt

/-- C7 witness: the concrete ladder instance discharges the hypotheses. -/
theorem c7_widths_witness : c7Variants.map Prod.fst = [480, 800, 1000] :=
  (c7_widths c7Env [("o/p.png", FileC.bytesF [6])] "o/p.png" "v" "webp" 82 [6]
    1000 700 [480, 800, 1200, 1600, 2000]
    ⟨[("o/p.png", .bytesF [6]),
      ("v/p-480w.webp", .bytesF [480, 336, 1, 82, 119, 101, 98, 112, 6]),
      ("v/p-800w.webp", .bytesF [800, 560, 1, 82, 119, 101, 98, 112, 6]),
      ("v/p-1000w.webp", .bytesF [1000, 700, 1, 82, 119, 101, 98, 112, 6])],
     [(480, "v/p-480w.webp"), (800, "v/p-800w.webp"), (1000, "v/p-1000w.webp")],
     [(480, 336), (800, 560)], 3⟩
    rfl rfl (by decide) rfl).2.2.2.2

/-- C8 counterexample: an img element that already has a sizes attribute —
with the empty-string value — still gets the default sizes written (the code
tests the attribute's truthiness, not its presence), refuting the claim
that the default is set only when the element has no sizes attribute. -/
theorem c8_counterexample :
    c8DocAfter = some (.htmlF
      [⟨some "images/responsive/b80ace4c3f8f-pic-40w.webp",
        some "images/responsive/b80ace4c3f8f-pic-40w.webp 40w",
        some default_sizes⟩]) ∧
    default_sizes ≠ "" := by
  refine ⟨by decide, by decide⟩

/-- C8 amended: for an img whose source resolves to a nonempty pair list,
the rewriter sets src to the variant at index length / 2 (the clamp of the
source never fires on a nonempty list), sets srcset to every variant
rendered as relative path, space, width, w joined by comma-space, and sets
the default sizes exactly when the existing sizes attribute is absent or
empty (an empty-string sizes attribute is overwritten; any other value is
kept). -/
theorem c8_amended (env : Env) (cfg : Cfg) (now : Nat) (droot fpath : String)
    (st st2 : St) (m m2 : Manifest) (img : Img) (s : String)
    (p0 : Nat × String) (ps : List (Nat × String))
    (hdl : cfg.download_images = true)
    (hfile : tlookup st.tree fpath = some (.htmlF [img]))
    (hsrc : img.src = some s) (hs : s ≠ "")
    (hres : process_one_image_url env cfg st m now droot (dirname fpath) s =
      .ok (st2, m2, some (p0 :: ps))) :
    rewrite_img_tags env cfg now droot fpath st m =
      .ok (⟨twrite st2.tree fpath
              (.htmlF [apply_img_rewrite (dirname fpath) (p0 :: ps) img]),
            st2.encodes⟩, m2) ∧
    (apply_img_rewrite (dirname fpath) (p0 :: ps) img).src =
      some (pyQuote (relpath ((p0 :: ps).getD ((p0 :: ps).length / 2) (0, "")).2
        (dirname fpath)) ['/', ':']) ∧
    (apply_img_rewrite (dirname fpath) (p0 :: ps) img).srcset =
      some (joinSep ", " ((p0 :: ps).map (fun wp =>
        pyQuote (relpath wp.2 (dirname fpath)) ['/', ':'] ++ " " ++
          toString wp.1 ++ "w"))) ∧
    ((img.sizes = none ∨ img.sizes = some "") →
      (apply_img_rewrite (dirname fpath) (p0 :: ps) img).sizes = some default_sizes) ∧
    (∀ v, img.sizes = some v → v ≠ "" →
      (apply_img_rewrite (dirname fpath) (p0 :: ps) img).sizes = some v) := by
  have hbe : (s == "") = false := beq_eq_false_iff_ne.mpr hs
  have hmin : min ((p0 :: ps).length / 2) ((p0 :: ps).length - 1) =
      (p0 :: ps).length / 2 := by
    simp only [List.length_cons]
    omega
  refine ⟨?_, ?_, ?_, ?_, ?_⟩
  · simp only [rewrite_img_tags, hfile, imgLoop, hdl, Bool.not_true, hsrc, hbe, hres]
    rfl
  · simp only [apply_img_rewrite]
    rw [hmin]
  · rfl
  · intro hsz
    simp only [apply_img_rewrite]
    rw [if_pos hsz]
  · intro v hv hvne
    simp only [apply_img_rewrite, hv]
    rw [if_neg (by simp [hvne])]

/-- C8 amended witness: a concrete one-element document rewritten end to
end. -/
theorem c8_amended_witness :
    rewrite_img_tags scnEnv {} 77 "dist" "dist/index.html"
      ⟨[("dist/index.html", .htmlF [⟨some "pic.png", none, none⟩]),
        ("dist/pic.png", .bytesF [9, 9, 9])], 0⟩ [] =
      .ok (⟨twrite c8wSt2.tree "dist/index.html"
              (.htmlF [apply_img_rewrite (dirname "dist/index.html")
                [(40, "dist/images/responsive/b80ace4c3f8f-pic-40w.webp")]
                ⟨some "pic.png", none, none⟩]),
            c8wSt2.encodes⟩, c8wM2) :=
  (c8_amended scnEnv {} 77 "dist" "dist/index.html"
    ⟨[("dist/index.html", .htmlF [⟨some "pic.png", none, none⟩]),
      ("dist/pic.png", .bytesF [9, 9, 9])], 0⟩ c8wSt2 [] c8wM2
    ⟨some "pic.png", none, none⟩ "pic.png"
    (40, "dist/images/responsive/b80ace4c3f8f-pic-40w.webp") []
    rfl rfl rfl (by decide) rfl).1

/-- C9: the CSS repl closure leaves the token verbatim on every resolution
failure (the exception is caught) and on an unresolvable local path, and on
success replaces it with url of the percent-encoded path of the variant
with the largest width (the last of a width-ascending list), relative to the
CSS directory. -/
theorem c9_css_spec (env : Env) (cfg : Cfg) (now : Nat) (droot cdir : String)
    (st : St) (m : Manifest) (token url0 : String) :
    (∀ e stE, css_resolve env cfg now droot cdir st m url0 = .error (e, stE) →
      css_repl env cfg now droot cdir st m token url0 = (stE, m, token)) ∧
    (∀ st2 m2, css_resolve env cfg now droot cdir st m url0 = .ok (st2, m2, none) →
      css_repl env cfg now droot cdir st m token url0 = (st2, m2, token)) ∧
    (∀ st2 m2 p ps last,
      css_resolve env cfg now droot cdir st m url0 = .ok (st2, m2, some (p :: ps)) →
      (p :: ps).Pairwise (fun a b => width_of a < width_of b) →
      (p :: ps).getLast? = some last →
      css_repl env cfg now droot cdir st m token url0 =
        (st2, m2, "url(" ++ pyQuote (relpath last cdir) ['/', ':'] ++ ")")) := by
  refine ⟨?_, ?_, ?_⟩
  · intro e stE hr
    simp [css_repl, hr]
  · intro st2 m2 hr
    simp [css_repl, hr]
  · intro st2 m2 p ps last hr hpw hl
    simp [css_repl, hr, maxByWidth_sorted ps p last hpw hl]

/-- C9 witness: a concrete relative URL in a CSS file two levels up from the
variant directory is rewritten to the largest (only) variant. -/
theorem c9_css_spec_witness :
    css_repl scnEnv {} 77 "dist" "dist/css"
      ⟨[("dist/style.css", .bytesF []), ("dist/pic.png", .bytesF [9, 9, 9])], 0⟩ []
      "url(../pic.png)" "../pic.png" =
      (c9wSt2, c8wM2,
       "url(" ++ pyQuote
         (relpath "dist/images/responsive/b80ace4c3f8f-pic-40w.webp" "dist/css")
         ['/', ':'] ++ ")") :=
  (c9_css_spec scnEnv {} 77 "dist" "dist/css"
    ⟨[("dist/style.css", .bytesF []), ("dist/pic.png", .bytesF [9, 9, 9])], 0⟩ []
    "url(../pic.png)" "../pic.png").2.2 c9wSt2 c8wM2
    "dist/images/responsive/b80ace4c3f8f-pic-40w.webp" []
    "dist/images/responsive/b80ace4c3f8f-pic-40w.webp"
    rfl (by decide) rfl

/-- A generated variant path with an empty extension ends in a bare dot. -/
theorem variant_path_ends_dot (d stem : String) (tg : Nat) :
    (pjoin d (stem ++ "-" ++ toString tg ++ "w." ++ "")).data.getLast? = some '.' := by
  have hdata : (pjoin d (stem ++ "-" ++ toString tg ++ "w." ++ "")).data =
      (d.data ++ "/".data ++ stem.data ++ "-".data ++ (toString tg).data) ++
        ['w', '.'] := by
    simp [pjoin, String.data_append]
  rw [hdata, getLast?_append_right _ _ (by simp)]
  rfl

/-- C10: the HTML rewriter derives its pairs by matching each variant
basename against the hyphen-digits-w-dot-suffix pattern, so paths whose
basename does not match are dropped, and with an empty pair list the element
is left unmodified even though the resolution succeeded; the keep format on
an extensionless original produces exactly such paths (filenames ending in a
bare dot), for which the pattern never matches and the pair list is empty. -/
theorem c10_pattern_spec (env : Env) (cfg : Cfg) (now : Nat)
    (droot fpath : String) (st st2 : St) (m m2 : Manifest) (img : Img)
    (s : String) (t : Tree) (p d : String) (q : Nat) (b : Bytes) (w h : Nat)
    (ws : List Nat) (mv : MVOut) :
    (cfg.download_images = true →
     tlookup st.tree fpath = some (.htmlF [img]) →
     img.src = some s → s ≠ "" →
     process_one_image_url env cfg st m now droot (dirname fpath) s =
       .ok (st2, m2, some []) →
     rewrite_img_tags env cfg now droot fpath st m = .ok (st2, m2)) ∧
    (tlookup t p = some (.bytesF b) → env.decode b = some (w, h) →
     (splitext_base (basename p)).2 = "" →
     make_variants env t p d ws "keep" q = .ok mv →
     (∀ pr ∈ mv.variants, widthFromBasenameHtml (basename pr.2) = none) ∧
     html_pairs (mv.variants.map (fun vp => vp.2)) = []) := by
  constructor
  · intro hdl hfile hsrc hs hres
    have hbe : (s == "") = false := beq_eq_false_iff_ne.mpr hs
    simp only [rewrite_img_tags, hfile, imgLoop, hdl, Bool.not_true, hsrc, hbe, hres]
    rfl
  · intro hf hd hsp hmv
    obtain ⟨A, B, C, D⟩ := mv
    simp only [make_variants, hf, hd, hsp, Except.ok.injEq, MVOut.mk.injEq] at hmv
    obtain ⟨hA, hB, hC, hD⟩ := hmv
    rw [mvLoop_variants] at hB
    have hdrop : String.mk (("" : String).data.dropWhile (fun c => c == '.')) = "" := rfl
    have hnone : ∀ pr ∈ B, widthFromBasenameHtml (basename pr.2) = none := by
      intro pr hpr
      rw [← hB, mem_sortByFst] at hpr
      rcases List.mem_append.mp hpr with hpr | hpr
      · rcases List.mem_map.mp hpr with ⟨tg, _, rfl⟩
        apply widthFromBasenameHtml_dot
        apply basename_getLast
        simpa [hdrop] using variant_path_ends_dot d
          (slugify_name (splitext_base (basename p)).1) tg
      · rcases List.mem_singleton.mp hpr with rfl
        apply widthFromBasenameHtml_dot
        apply basename_getLast
        simpa [hdrop] using variant_path_ends_dot d
          (slugify_name (splitext_base (basename p)).1) w
    refine ⟨hnone, ?_⟩
    have hfm : (B.map (fun vp => vp.2)).filterMap
        (fun pth => (widthFromBasenameHtml (basename pth)).map (fun n => (n, pth))) =
        [] := by
      apply List.filterMap_eq_nil_iff.mpr
      intro a ha
      rcases List.mem_map.mp ha with ⟨pr, hpr, rfl⟩
      rw [hnone pr hpr]
      rfl
    rw [html_pairs, hfm]
    rfl

/-- C10 witness: with the keep format and an extensionless original, the
document is left unmodified while the variant file exists on disk and the
manifest records the hash; and the generated variant basenames indeed never
match the pattern. -/
theorem c10_pattern_spec_witness :
    (rewrite_img_tags scnEnv c10Cfg 77 "dist" "dist/index.html"
        ⟨[("dist/index.html", .htmlF [⟨some "pic", none, none⟩]),
          ("dist/pic", .bytesF [9, 9, 9])], 0⟩ [] = .ok (c10wSt2, c10wM2)) ∧
    html_pairs (c10wMV.variants.map (fun vp => vp.2)) = [] ∧
    texists c10wSt2.tree "dist/images/responsive/b80ace4c3f8f-pic-40w." = true ∧
    mlookup c10wM2 "b80ace4c3f8f" ≠ none ∧
    tlookup c10wSt2.tree "dist/index.html" =
      some (.htmlF [⟨some "pic", none, none⟩]) :=
  ⟨(c10_pattern_spec scnEnv c10Cfg 77 "dist" "dist/index.html"
      ⟨[("dist/index.html", .htmlF [⟨some "pic", none, none⟩]),
        ("dist/pic", .bytesF [9, 9, 9])], 0⟩ c10wSt2 [] c10wM2
      ⟨some "pic", none, none⟩ "pic"
      [("dist/images/original/b80ace4c3f8f-pic", .bytesF [9, 9, 9])]
      "dist/images/original/b80ace4c3f8f-pic" "dist/images/responsive" 82
      [9, 9, 9] 40 30 [480, 800, 1200, 1600, 2000] c10wMV).1
      rfl rfl rfl (by decide) rfl,
   (c10_pattern_spec scnEnv c10Cfg 77 "dist" "dist/index.html"
      ⟨[("dist/index.html", .htmlF [⟨some "pic", none, none⟩]),
        ("dist/pic", .bytesF [9, 9, 9])], 0⟩ c10wSt2 [] c10wM2
      ⟨some "pic", none, none⟩ "pic"
      [("dist/images/original/b80ace4c3f8f-pic", .bytesF [9, 9, 9])]
      "dist/images/original/b80ace4c3f8f-pic" "dist/images/responsive" 82
      [9, 9, 9] 40 30 [480, 800, 1200, 1600, 2000] c10wMV).2
      rfl rfl rfl rfl |>.2,
   by decide, by decide, by decide⟩

end Postexport
